import Mathlib

set_option maxHeartbeats 1000000
set_option maxRecDepth 100000

/-!
Shallow embedding of the job-search-automation repository
(src/job_scraper_emailer.py and src/walkin_job_scraper.py) and proofs
about its normalization / classification / deduplication pipeline.

Modelling conventions:
  - Python strings are Lean `String` (character classes such as `\d`, `\w`,
    `\s` are modelled over their ASCII range);
  - Python `None` for an optional text argument is `Option String`;
  - the SQLite `seen` table (link TEXT PRIMARY KEY, first_seen INTEGER)
    is an association list `List (String × Nat)` threaded explicitly;
  - `int(time.time())` is an explicit `now : Nat` parameter;
  - `datetime.now().strftime(...)` is an explicit `today : String` parameter;
  - Python's `set(...)` iteration is modelled as `dedupList`
    (first-occurrence order); all properties proved are order-irrelevant.
-/

/-! ## Generic string machinery (Python `in`, `+`, `join`) -/

/-- Boolean test that `n` is a prefix of the second list. -/
def leadsWith : List Char → List Char → Bool
  | [], _ => true
  | _ :: _, [] => false
  | a :: as, b :: bs => a == b && leadsWith as bs

/-- Boolean substring containment on character lists (Python `n in h`). -/
def containsSeq (n : List Char) : List Char → Bool
  | [] => n.isEmpty
  | b :: bs => leadsWith n (b :: bs) || containsSeq n bs

/-- Boolean substring containment on strings (Python `n in h`). -/
def containsStr (n h : String) : Bool := containsSeq n.data h.data

/-- Propositional substring containment: `h` decomposes around `n`. -/
def SubStr (n h : String) : Prop := ∃ pre post : String, h = pre ++ (n ++ post)

lemma strData_append (a b : String) : (a ++ b).data = a.data ++ b.data := rfl

lemma strEq_of_data {a b : String} (h : a.data = b.data) : a = b := by
  cases a; cases b; exact congrArg String.mk h

lemma strApp_assoc (a b c : String) : (a ++ b) ++ c = a ++ (b ++ c) := by
  apply strEq_of_data
  simp [strData_append]

lemma str_nil_append (s : String) : "" ++ s = s := by
  apply strEq_of_data
  simp [strData_append]

lemma str_append_nil (s : String) : s ++ "" = s := by
  apply strEq_of_data
  simp [strData_append]

lemma leadsWith_self_append (n r : List Char) : leadsWith n (n ++ r) = true := by
  induction n with
  | nil => rfl
  | cons a as ih => simp [leadsWith, ih]

lemma containsSeq_append (n pre post : List Char) :
    containsSeq n (pre ++ (n ++ post)) = true := by
  induction pre with
  | nil =>
    rw [List.nil_append]
    cases hn : n ++ post with
    | nil =>
      have : n = [] := by
        cases n with
        | nil => rfl
        | cons a as => simp at hn
      simp [this, containsSeq]
    | cons b bs =>
      have hl : leadsWith n (n ++ post) = true := leadsWith_self_append n post
      rw [hn] at hl
      simp [containsSeq, hl]
  | cons c cs ih =>
    simp only [List.cons_append, containsSeq, List.append_eq]
    rw [ih]
    simp

lemma subStr_contains {n h : String} (hs : SubStr n h) : containsStr n h = true := by
  obtain ⟨pre, post, rfl⟩ := hs
  simp only [containsStr, strData_append]
  exact containsSeq_append n.data pre.data post.data

lemma subStr_refl (n : String) : SubStr n n :=
  ⟨"", "", by rw [str_append_nil, str_nil_append]⟩

lemma subStr_appendL {n h : String} (a : String) (hs : SubStr n h) : SubStr n (a ++ h) := by
  obtain ⟨pre, post, rfl⟩ := hs
  exact ⟨a ++ pre, post, by rw [strApp_assoc]⟩

lemma subStr_appendR {n h : String} (b : String) (hs : SubStr n h) : SubStr n (h ++ b) := by
  obtain ⟨pre, post, rfl⟩ := hs
  exact ⟨pre, post ++ b, by rw [strApp_assoc, strApp_assoc]⟩

lemma subStr_trans {a b c : String} (h1 : SubStr a b) (h2 : SubStr b c) : SubStr a c := by
  obtain ⟨p1, q1, rfl⟩ := h1
  obtain ⟨p2, q2, rfl⟩ := h2
  exact ⟨p2 ++ p1, q1 ++ q2, by rw [strApp_assoc, strApp_assoc, strApp_assoc]⟩

lemma subStr_middle (a n b : String) : SubStr n (a ++ (n ++ b)) := ⟨a, b, rfl⟩

lemma subStr_ne_empty {n h : String} (hs : SubStr n h) (hn : n ≠ "") : h ≠ "" := by
  obtain ⟨pre, post, rfl⟩ := hs
  intro hcon
  apply hn
  have : (pre ++ (n ++ post)).data = ("" : String).data := by rw [hcon]
  simp only [strData_append] at this
  have hd : n.data = [] := by
    rcases (by simpa using this : pre.data = [] ∧ n.data = [] ∧ post.data = []) with ⟨_, h2, _⟩
    exact h2
  cases n
  simp at hd
  simp [hd]

/-- Python `sep.join(parts)`. -/
def joinSep (sep : String) : List String → String
  | [] => ""
  | [p] => p
  | p :: q :: rest => p ++ sep ++ joinSep sep (q :: rest)

lemma joinSep_sub (sep : String) : ∀ (parts : List String) (p : String),
    p ∈ parts → SubStr p (joinSep sep parts) := by
  intro parts
  induction parts with
  | nil => intro p hp; simp at hp
  | cons q rest ih =>
    intro p hp
    cases rest with
    | nil =>
      simp at hp
      subst hp
      exact subStr_refl p
    | cons r rs =>
      rcases List.mem_cons.mp hp with h | h
      · subst h
        show SubStr p (p ++ sep ++ joinSep sep (r :: rs))
        exact subStr_appendR _ (subStr_appendR _ (subStr_refl p))
      · show SubStr p (q ++ sep ++ joinSep sep (r :: rs))
        rw [strApp_assoc]
        exact subStr_appendL _ (subStr_appendL _ (ih p h))

/-! ## Python `str.lower` and `html.escape` -/

/-- Python `text.lower()` (modelled characterwise). -/
def lowerStr (s : String) : String := String.mk (s.data.map Char.toLower)

/-- Expansion of a single character under Python `html.escape` (quote=True). -/
def escapeChar (c : Char) : String :=
  if c = '&' then "&amp;"
  else if c = '<' then "&lt;"
  else if c = '>' then "&gt;"
  else if c = '"' then "&quot;"
  else if c = '\'' then "&#x27;"
  else String.singleton c

/-- Python `html.escape(s)` with the default quote=True; both scripts apply it
to `s or ""`, which for string-valued fields coincides with `s`. -/
def html_escape (s : String) : String := String.join (s.data.map escapeChar)

/-- Python `s.strip()`: drop leading and trailing whitespace (ASCII range). -/
def stripStr (s : String) : String :=
  String.mk (((s.data.dropWhile Char.isWhitespace).reverse.dropWhile Char.isWhitespace).reverse)

/-! ## The Job record (uniform shape produced by every scraper in both scripts) -/

structure Job where
  title : String
  company : String
  location : String
  description : String
  link : Option String
  source : String
  emails : List String
  phones : List String
deriving DecidableEq

/-! ## Dedup Store: the SQLite `seen` table and `is_seen` / `mark_seen`
(identical in src/job_scraper_emailer.py lines 81-89 and
src/walkin_job_scraper.py lines 62-71). The table is an association list of
(link, first_seen) rows; `INSERT OR IGNORE` on the primary key appends a row
only when the key is absent. -/

/-- One `SELECT 1 FROM seen WHERE link = ?` membership query. -/
def is_seen (conn : List (String × Nat)) (link : String) : Bool :=
  conn.any (fun r => r.1 == link)

/-- One `INSERT OR IGNORE INTO seen (link, first_seen) VALUES (?, ?)`;
`now` stands for the Python `int(time.time())` argument. -/
def mark_seen (conn : List (String × Nat)) (link : String) (now : Nat) :
    List (String × Nat) :=
  if is_seen conn link then conn else conn ++ [(link, now)]

/-- The stored `first_seen` column for a key (None when the key is absent). -/
def firstSeen (conn : List (String × Nat)) (link : String) : Option Nat :=
  (conn.find? (fun r => r.1 == link)).map (fun r => r.2)

/-! ## Contact extraction: the shared regexes

EMAIL_REGEX = `[A-Za-z0-9._%+\-]+@[A-Za-z0-9.\-]+\.[A-Za-z]{2,}` and
PHONE_REGEX = `\b(?:\+91[\-\s]?)?[6-9]\d{9}\b`, identical in both scripts.
`re.findall` is embedded as a left-to-right scanner with the engine's
backtracking preferences (greedy option groups tried before being skipped;
in the domain part the latest viable dot wins). Character classes are
modelled over their ASCII range. -/

/-- Python regex `\w` (word character), ASCII range. -/
def isWordChar (c : Char) : Bool := c.isAlphanum || c == '_'

/-- The leading character class `[6-9]` of PHONE_REGEX. -/
def isPhoneStart (c : Char) : Bool := decide ('6' ≤ c) && decide (c ≤ '9')

/-- Python regex `[\-\s]` (hyphen or whitespace), ASCII range. -/
def isSepChar (c : Char) : Bool :=
  c == '-' || c == ' ' || c == '\t' || c == '\n' || c == '\r' ||
  c == '\x0b' || c == '\x0c'

/-- Match `\d{k}` at the front of the list, returning (consumed, rest). -/
def digitsFrom : Nat → List Char → Option (List Char × List Char)
  | 0, l => some ([], l)
  | _ + 1, [] => none
  | k + 1, c :: l =>
    if c.isDigit then (digitsFrom k l).map (fun p => (c :: p.1, p.2)) else none

/-- The `\b` position test, given whether the characters on either side are
word characters (out-of-text counts as non-word). -/
def boundaryBetween (prevW nextW : Bool) : Bool := prevW != nextW

/-- Match `[6-9]\d{9}\b` at the front of the list. -/
def matchCore : List Char → Option (List Char × List Char)
  | [] => none
  | c :: l =>
    if isPhoneStart c then
      match digitsFrom 9 l with
      | some (m, r) =>
        if boundaryBetween true (match r.head? with | some d => isWordChar d | none => false)
        then some (c :: m, r) else none
      | none => none
    else none

/-- Match `(?:\+91[\-\s]?)?[6-9]\d{9}\b` at the front of the list, trying the
optional `+91` group (and within it the optional separator) greedily first,
exactly as the backtracking engine does. -/
def matchAfterB : List Char → Option (List Char × List Char)
  | '+' :: '9' :: '1' :: rest =>
    match ((match rest with
            | s :: rest2 =>
              if isSepChar s then
                (matchCore rest2).map (fun p => ('+' :: '9' :: '1' :: s :: p.1, p.2))
              else none
            | [] => none) : Option (List Char × List Char)) with
    | some p => some p
    | none =>
      match (matchCore rest).map (fun p => ('+' :: '9' :: '1' :: p.1, p.2)) with
      | some p => some p
      | none => matchCore ('+' :: '9' :: '1' :: rest)
  | l => matchCore l

/-- Attempt PHONE_REGEX anchored at the current scan position, `prevW` telling
whether the preceding character (if any) is a word character. -/
def tryMatchPhone (prevW : Bool) (l : List Char) : Option (List Char × List Char) :=
  if boundaryBetween prevW (match l.head? with | some c => isWordChar c | none => false)
  then matchAfterB l else none

/-- The `re.findall` scan for PHONE_REGEX: try every position left to right,
resume after each (non-empty) match. -/
def scanPhones : Nat → Bool → List Char → List (List Char)
  | 0, _, _ => []
  | _ + 1, _, [] => []
  | fuel + 1, prevW, c :: rest =>
    match tryMatchPhone prevW (c :: rest) with
    | some (m, r) => m :: scanPhones fuel (isWordChar (m.getLastD c)) r
    | none => scanPhones fuel (isWordChar c) rest

/-- `re.findall(PHONE_REGEX, s)`. -/
def findPhones (s : String) : List String :=
  (scanPhones s.data.length false s.data).map (fun l => String.mk l)

/-- Python regex class `[A-Za-z0-9._%+\-]` (email local part), ASCII range. -/
def isLocalChar (c : Char) : Bool :=
  c.isAlphanum || c == '.' || c == '_' || c == '%' || c == '+' || c == '-'

/-- Python regex class `[A-Za-z0-9.\-]` (email domain part), ASCII range. -/
def isDomainChar (c : Char) : Bool := c.isAlphanum || c == '.' || c == '-'

/-- Backtracking search for the split of the greedy domain run demanded by
`\.[A-Za-z]{2,}`: the latest dot followed by at least two letters wins.
Returns (consumed-from-run, rest-of-run). -/
def splitDomain : List Char → Option (List Char × List Char)
  | [] => none
  | c :: rest =>
    match splitDomain rest with
    | some (con, r) => some (c :: con, r)
    | none =>
      if c == '.' then
        let tld := rest.takeWhile (fun d => d.isAlpha)
        if tld.length ≥ 2 then some (c :: tld, rest.drop tld.length) else none
      else none

/-- Attempt EMAIL_REGEX anchored at the current scan position. -/
def tryMatchEmail (l : List Char) : Option (List Char × List Char) :=
  let loc := l.takeWhile isLocalChar
  if loc.isEmpty then none
  else
    match l.drop loc.length with
    | '@' :: r2 =>
      let dom := r2.takeWhile isDomainChar
      match dom with
      | [] => none
      | d0 :: drest =>
        match splitDomain drest with
        | some (con, rstD) =>
          some (loc ++ '@' :: d0 :: con, rstD ++ r2.drop dom.length)
        | none => none
    | _ => none

/-- The `re.findall` scan for EMAIL_REGEX. -/
def scanEmails : Nat → List Char → List (List Char)
  | 0, _ => []
  | _ + 1, [] => []
  | fuel + 1, c :: rest =>
    match tryMatchEmail (c :: rest) with
    | some (m, r) => m :: scanEmails fuel r
    | none => scanEmails fuel rest

/-- `re.findall(EMAIL_REGEX, s)`. -/
def findEmails (s : String) : List String :=
  (scanEmails s.data.length s.data).map (fun l => String.mk l)

/-- Helper for `dedupList`: keep the first occurrence of each element. -/
def dedupAcc (seen : List String) : List String → List String
  | [] => []
  | p :: rest => if p ∈ seen then dedupAcc seen rest else p :: dedupAcc (p :: seen) rest

/-- Python `list(set(xs))` in first-occurrence order (the proved properties
are membership-based, hence order-irrelevant). -/
def dedupList (l : List String) : List String := dedupAcc [] l

lemma dedupAcc_subset : ∀ (seen l : List String) (p : String),
    p ∈ dedupAcc seen l → p ∈ l := by
  intro seen l
  induction l generalizing seen with
  | nil => intro p h; simp [dedupAcc] at h
  | cons q rest ih =>
    intro p h
    simp only [dedupAcc] at h
    split at h
    · exact List.mem_cons_of_mem q (ih seen p h)
    · rcases List.mem_cons.mp h with rfl | hmem
      · exact List.mem_cons_self p rest
      · exact List.mem_cons_of_mem q (ih _ p hmem)

lemma dedupList_subset (l : List String) (p : String) (h : p ∈ dedupList l) : p ∈ l :=
  dedupAcc_subset [] l p h

/-- Phone normalization loop shared by both extractors: strip non-digits
(`re.sub(r"[^\d]", "", p)`), keep the last 10 digits when longer, retain the
candidate only when exactly 10 digits remain. -/
def cleanPhone (m : List Char) : List Char :=
  let pc := m.filter Char.isDigit
  if pc.length > 10 then pc.drop (pc.length - 10) else pc

def normPhones : List String → List String
  | [] => []
  | p :: rest =>
    let pc2 := cleanPhone p.data
    if pc2.length = 10 then String.mk pc2 :: normPhones rest else normPhones rest

/-! ## src/walkin_job_scraper.py -/

namespace Walkin

/-- Module-level TARGET_CITIES of walkin_job_scraper.py. -/
def TARGET_CITIES : List String :=
  ["pune", "pimpri", "pimpri chinchwad", "pcmc", "hadapsar", "baner", "wakad", "kharadi"]

/-- Module-level ROLE_KEYWORDS of walkin_job_scraper.py. -/
def ROLE_KEYWORDS : List String :=
  ["ecommerce", "e-commerce", "amazon", "flipkart", "marketplace", "catalog",
   "listing", "e commerce"]

/-- Module-level WALKIN_KEYWORDS of walkin_job_scraper.py. -/
def WALKIN_KEYWORDS : List String :=
  ["walk in", "walk-in", "walkin", "walkin interview", "walk in interview",
   "walk-in drive"]

/-- The local `markers` list of `is_recent`. -/
def RECENT_MARKERS : List String :=
  ["just posted", "posted today", "today", "1 day ago", "posted 1 day ago", "just now"]

/-- `extract_contact(text)` (walkin_job_scraper.py lines 74-86): emails and
phones found by the two regexes, phones normalized by `normPhones`; `None`
and the empty string short-circuit to two empty lists. -/
def extract_contact (text : Option String) : List String × List String :=
  match text with
  | none => ([], [])
  | some s =>
    if s.isEmpty then ([], [])
    else
      let emails := dedupList (findEmails s)
      let phones := dedupList (findPhones s)
      (emails, normPhones phones)

/-- `text_has_city(text)` (lines 89-93). -/
def text_has_city (text : Option String) : Bool :=
  match text with
  | none => false
  | some s =>
    if s.isEmpty then false
    else TARGET_CITIES.any (fun city => containsStr city (lowerStr s))

/-- `text_matches_role_or_walkin(text)` (lines 96-100). -/
def text_matches_role_or_walkin (text : Option String) : Bool :=
  match text with
  | none => false
  | some s =>
    if s.isEmpty then false
    else
      ROLE_KEYWORDS.any (fun k => containsStr k (lowerStr s)) ||
      WALKIN_KEYWORDS.any (fun w => containsStr w (lowerStr s))

/-- `is_recent(text)` (lines 103-108): true iff the lowercased text contains
one of the six fixed markers; there is no numeric hour pattern. -/
def is_recent (text : Option String) : Bool :=
  match text with
  | none => false
  | some s =>
    if s.isEmpty then false
    else RECENT_MARKERS.any (fun m => containsStr m (lowerStr s))

/-- The expression `j.get("link") or (j.get("title","") + j.get("company",""))`
used as dedup key in `dedupe_jobs` and in `main` (a falsy link, i.e. `None`
or `""`, falls back to the concatenation). -/
def jobKey (j : Job) : String :=
  match j.link with
  | some l => if l = "" then j.title ++ j.company else l
  | none => j.title ++ j.company

/-- Loop body of `dedupe_jobs` (lines 310-322): `seen_links` is the in-run
set of stripped keys. -/
def dedupeAux (seen_links : List String) : List Job → List Job
  | [] => []
  | j :: rest =>
    let link := jobKey j
    if link = "" then dedupeAux seen_links rest
    else
      let key := stripStr link
      if key ∈ seen_links then dedupeAux seen_links rest
      else j :: dedupeAux (key :: seen_links) rest

/-- `dedupe_jobs(jobs)` (lines 310-322). -/
def dedupe_jobs (jobs : List Job) : List Job := dedupeAux [] jobs

/-- Helper for `dedupe_jobs_specExact`: in-run dedup driven by the unstripped
key. -/
def specExactAux (seen_links : List String) : List Job → List Job
  | [] => []
  | j :: rest =>
    let key := jobKey j
    if key = "" then specExactAux seen_links rest
    else if key ∈ seen_links then specExactAux seen_links rest
    else j :: specExactAux (key :: seen_links) rest

/-- Modelled from the spec: the in-run dedupe as §8 of the spec words it,
with the composite fallback key being `title + company` exactly (no
whitespace stripping). Used only to contrast with `dedupe_jobs`. -/
def dedupe_jobs_specExact (jobs : List Job) : List Job := specExactAux [] jobs

/-- The `new_jobs` loop of `main` (lines 399-406): for each deduped job,
recompute the key, skip empty keys, query the Dedup Store, and on a miss
keep the job and immediately record the key. -/
def newJobsLoop (conn : List (String × Nat)) (now : Nat) :
    List Job → List Job × List (String × Nat)
  | [] => ([], conn)
  | j :: rest =>
    let link := jobKey j
    if link = "" then newJobsLoop conn now rest
    else if is_seen conn link then newJobsLoop conn now rest
    else
      let res := newJobsLoop (mark_seen conn link now) now rest
      (j :: res.1, res.2)

/-- The strings appended to `parts` for one job in `build_email_html`
(lines 332-347), in order. -/
def renderJob (j : Job) : List String :=
  ["<div style='margin-bottom:12px;padding:10px;border:1px solid #e6e6e6;border-radius:6px;'>"]
  ++ ["<h3 style='margin:0'>" ++ (html_escape j.title ++ "</h3>")]
  ++ (if j.company = "" then []
      else ["<p style='margin:4px 0'><b>Company:</b> " ++ (html_escape j.company ++ "</p>")])
  ++ ["<p style='margin:4px 0'><b>Source:</b> " ++ (html_escape j.source ++ " ")]
  ++ (if j.location = "" then []
      else [" - " ++ (html_escape j.location ++ "</p>")])
  ++ ["<p style='margin:6px 0'>" ++ (html_escape (String.mk (j.description.data.take 600)) ++ "...</p>")]
  ++ (match j.link with
      | some l =>
        if l = "" then []
        else ["<p style='margin:6px 0'><a href=\"" ++ (l ++ "\">Open job/link</a></p>")]
      | none => [])
  ++ (if j.emails = [] then []
      else ["<p style='margin:6px 0'><b>Emails:</b> " ++
            (joinSep ", " (j.emails.map html_escape) ++ "</p>")])
  ++ (if j.phones = [] then []
      else ["<p style='margin:6px 0'><b>Phones:</b> " ++
            (joinSep ", " (j.phones.map html_escape) ++ "</p>")])
  ++ ["</div>"]

/-- `build_email_html(jobs)` (lines 325-348); `today` is the
`datetime.now().strftime('%Y-%m-%d')` value. -/
def build_email_html (today : String) (jobs : List Job) : String :=
  let parts :=
    ["<h2>Daily Walk-in + E-commerce Jobs (Pune) — " ++ (today ++ "</h2>")]
    ++ (if jobs = [] then ["<p>No new jobs found in the last 1 day.</p>"]
        else ["<p>Total new jobs: " ++ (toString jobs.length ++ "</p>")]
             ++ jobs.flatMap renderJob)
  joinSep "\n" parts

/-- The `(subject, html_body)` pair `main` (lines 410-413) hands to
`send_email`; the call is made unconditionally, also for an empty job list. -/
def mainDelivery (today : String) (new_jobs : List Job) : String × String :=
  ("Walk-in+Ecom Jobs (Pune) — " ++ today, build_email_html today new_jobs)

end Walkin

/-- Helper for `pyInt`: a non-empty all-digit run read as a decimal Nat. -/
def parseDigits (ds : List Char) : Option Nat :=
  if ds.isEmpty then none
  else if ds.all Char.isDigit then
    some (ds.foldl (fun acc c => acc * 10 + (c.toNat - 48)) 0)
  else none

/-- Python `int(s)` on a decimal literal with an optional sign (whitespace
and underscore forms are not modelled); `none` is the `ValueError` case. -/
def pyInt (s : String) : Option Int :=
  match s.data with
  | '-' :: ds => (parseDigits ds).map (fun n => -(n : Int))
  | '+' :: ds => (parseDigits ds).map (fun n => (n : Int))
  | ds => (parseDigits ds).map (fun n => (n : Int))

/-- Python truthiness of `os.getenv(...)`: `None` and `""` are falsy. -/
def truthyOpt : Option String → Bool
  | none => false
  | some s => !s.isEmpty

/-! ## src/job_scraper_emailer.py -/

namespace Emailer

/-- Module-level TARGET_CITIES of job_scraper_emailer.py. -/
def TARGET_CITIES : List String :=
  ["pune", "mumbai", "navi mumbai", "thane", "mumbai metropolitan region",
   "bangalore", "bengaluru"]

/-- `contains_target_city(text)` (job_scraper_emailer.py lines 91-95). -/
def contains_target_city (text : Option String) : Bool :=
  match text with
  | none => false
  | some s =>
    if s.isEmpty then false
    else TARGET_CITIES.any (fun city => containsStr city (lowerStr s))

/-- `extract_contact_info(text)` (lines 97-111). -/
def extract_contact_info (text : Option String) : List String × List String :=
  match text with
  | none => ([], [])
  | some s =>
    if s.isEmpty then ([], [])
    else
      let emails := findEmails s
      let phones := findPhones s
      (dedupList emails, normPhones (dedupList phones))

/-- The expression `job.get("link") or (job.get("title","")+job.get("company",""))`
used as dedup key in `main` (line 413). -/
def jobKey (j : Job) : String :=
  match j.link with
  | some l => if l = "" then j.title ++ j.company else l
  | none => j.title ++ j.company

/-- The `combined` text `main` scans for a target city (line 410):
`" ".join([title, location, description])`. -/
def combinedText (j : Job) : String :=
  joinSep " " [j.title, j.location, j.description]

/-- The filter-and-dedup loop of `main` (lines 408-416): city-matching jobs
whose key misses the Dedup Store are kept, and the key is recorded
immediately. -/
def filterNewJobs (conn : List (String × Nat)) (now : Nat) :
    List Job → List Job × List (String × Nat)
  | [] => ([], conn)
  | job :: rest =>
    if contains_target_city (some (combinedText job)) then
      let link := jobKey job
      if is_seen conn link then filterNewJobs conn now rest
      else
        let res := filterNewJobs (mark_seen conn link now) now rest
        (job :: res.1, res.2)
    else filterNewJobs conn now rest

/-- One step of the per-source counting dict in `build_email_html`
(lines 312-315); Python dicts preserve insertion order. -/
def bumpSrc (acc : List (String × Nat)) (src : String) : List (String × Nat) :=
  if acc.any (fun kv => kv.1 == src) then
    acc.map (fun kv => if kv.1 == src then (kv.1, kv.2 + 1) else kv)
  else acc ++ [(src, 1)]

/-- The `summary` dict of `build_email_html` as an insertion-ordered list. -/
def summaryList (jobs : List Job) : List (String × Nat) :=
  jobs.foldl (fun acc j => bumpSrc acc j.source) []

/-- The strings appended to `html_parts` for one job in `build_email_html`
(lines 324-347), in order. -/
def renderJob (j : Job) : List String :=
  let comp := html_escape j.company
  let loc := html_escape j.location
  let desc := html_escape (String.mk (j.description.data.take 600))
  ["<div style='margin-bottom:18px;padding:10px;border:1px solid #e1e1e1;border-radius:8px;'>"]
  ++ ["<h3 style='margin:0'>" ++ (html_escape j.title ++ "</h3>")]
  ++ (if comp = "" then []
      else ["<p style='margin:4px 0'><b>Company:</b> " ++ (comp ++ "</p>")])
  ++ (if loc = "" then []
      else ["<p style='margin:4px 0'><b>Location:</b> " ++ (loc ++ "</p>")])
  ++ ["<p style='margin:6px 0'><b>Short description:</b> " ++ (desc ++ "...</p>")]
  ++ (match j.link with
      | some l =>
        if l = "" then []
        else ["<p style='margin:6px 0'><b>Apply / Job link:</b> <a href='" ++
              (l ++ ("'>" ++ (l ++ "</a></p>")))]
      | none => [])
  ++ (if j.emails = [] then []
      else ["<p style='margin:6px 0'><b>Recruiter emails:</b> " ++
            (joinSep ", " (j.emails.map html_escape) ++ "</p>")])
  ++ (if j.phones = [] then []
      else ["<p style='margin:6px 0'><b>Recruiter phones:</b> " ++
            (joinSep ", " (j.phones.map html_escape) ++ "</p>")])
  ++ ["<p style='font-size:11px;color:#666;margin:6px 0'><i>Source: " ++
      (j.source ++ "</i></p>")]
  ++ ["</div>"]

/-- `build_email_html(jobs)` (lines 311-349); `today` is the
`time.strftime('%Y-%m-%d')` value. -/
def build_email_html (today : String) (jobs : List Job) : String :=
  let parts :=
    ["<h2>Daily E-commerce Job Report (Filtered: Pune / Mumbai / Bangalore)</h2>"]
    ++ ["<p>Date: " ++ today ++ "</p>"]
    ++ ["<p><b>Summary:</b> " ++
        (joinSep ", " ((summaryList jobs).map (fun kv => kv.1 ++ ": " ++ toString kv.2))
         ++ "</p>")]
    ++ (if jobs = [] then ["<p>No new job listings matched your cities today.</p>"]
        else jobs.flatMap renderJob)
  joinSep "\n" parts

/-- The `(subject, html_body)` pair `main` (lines 420-424) hands to
`send_email`; the call is made unconditionally, also for an empty job list. -/
def mainDelivery (today : String) (jobs : List Job) : String × String :=
  ("New Jobs Alert (Cities: Pune/Mumbai/Bangalore) — " ++ today,
   build_email_html today jobs)

/-- The environment-derived module configuration (lines 39-48). -/
structure Config where
  email_host : String
  email_port : Int
  email_user : String
  email_pass : String
  recipient_email : String
  naukri_query : String
  linkedin_query : String
  web_query : String
  max_results : Int
deriving DecidableEq

/-- Module-level configuration loading of job_scraper_emailer.py
(lines 39-51), in source order: `int(...)` on a malformed value raises
before the mandatory-credential check, and a missing or empty
EMAIL_USER / EMAIL_PASS / RECIPIENT_EMAIL raises `SystemExit` with the
fixed message. -/
def loadConfig (env : String → Option String) : Except String Config :=
  let host := (env "EMAIL_HOST").getD "smtp.gmail.com"
  match pyInt ((env "EMAIL_PORT").getD "587") with
  | none => Except.error "ValueError: invalid literal for int() [EMAIL_PORT]"
  | some port =>
    let user := env "EMAIL_USER"
    let pw := env "EMAIL_PASS"
    let rcpt := env "RECIPIENT_EMAIL"
    let nq := (env "NAUKRI_QUERY").getD "E-commerce Manager"
    let lq := (env "LINKEDIN_QUERY").getD "Ecommerce Manager"
    let wq := (env "WEB_QUERY").getD "E-commerce Manager jobs India"
    match pyInt ((env "MAX_RESULTS").getD "10") with
    | none => Except.error "ValueError: invalid literal for int() [MAX_RESULTS]"
    | some maxr =>
      if truthyOpt user && truthyOpt pw && truthyOpt rcpt then
        Except.ok
          { email_host := host, email_port := port,
            email_user := user.getD "", email_pass := pw.getD "",
            recipient_email := rcpt.getD "",
            naukri_query := nq, linkedin_query := lq, web_query := wq,
            max_results := maxr }
      else
        Except.error "EMAIL_USER, EMAIL_PASS and RECIPIENT_EMAIL must be set in environment or .env"

/-- The whole run: configuration loading happens at import time, before any
fetch; a configuration error short-circuits everything downstream. -/
def runWithConfig {α : Type} (env : String → Option String)
    (pipeline : Config → α) : Except String α :=
  (loadConfig env).map pipeline

end Emailer

namespace Walkin

/-- The environment-derived module configuration (walkin_job_scraper.py
lines 27-32). -/
structure Config where
  email_host : String
  email_port : Int
  email_user : String
  email_pass : String
  recipient_email : String
  max_results : Int
deriving DecidableEq

/-- Module-level configuration loading of walkin_job_scraper.py
(lines 27-35), in source order. -/
def loadConfig (env : String → Option String) : Except String Config :=
  let host := (env "EMAIL_HOST").getD "smtp.gmail.com"
  match pyInt ((env "EMAIL_PORT").getD "587") with
  | none => Except.error "ValueError: invalid literal for int() [EMAIL_PORT]"
  | some port =>
    let user := env "EMAIL_USER"
    let pw := env "EMAIL_PASS"
    let rcpt := env "RECIPIENT_EMAIL"
    match pyInt ((env "MAX_RESULTS").getD "25") with
    | none => Except.error "ValueError: invalid literal for int() [MAX_RESULTS]"
    | some maxr =>
      if truthyOpt user && truthyOpt pw && truthyOpt rcpt then
        Except.ok
          { email_host := host, email_port := port,
            email_user := user.getD "", email_pass := pw.getD "",
            recipient_email := rcpt.getD "",
            max_results := maxr }
      else
        Except.error "Set EMAIL_USER, EMAIL_PASS and RECIPIENT_EMAIL as environment variables (or GH Secrets)."

/-- The whole run: configuration loading happens at import time, before any
fetch; a configuration error short-circuits everything downstream. -/
def runWithConfig {α : Type} (env : String → Option String)
    (pipeline : Config → α) : Except String α :=
  (loadConfig env).map pipeline

end Walkin

/-! ## Store lemmas -/

lemma is_seen_append (c1 c2 : List (String × Nat)) (k : String) :
    is_seen (c1 ++ c2) k = (is_seen c1 k || is_seen c2 k) := by
  simp [is_seen, List.any_append]

lemma is_seen_mark_self (conn : List (String × Nat)) (k : String) (t : Nat) :
    is_seen (mark_seen conn k t) k = true := by
  unfold mark_seen
  split
  · assumption
  · simp [is_seen_append, is_seen]

lemma is_seen_mark_mono {conn : List (String × Nat)} {k : String} (k' : String) (t : Nat)
    (h : is_seen conn k = true) : is_seen (mark_seen conn k' t) k = true := by
  unfold mark_seen
  split
  · exact h
  · simp [is_seen_append, h]

lemma keys_nodup_mark {conn : List (String × Nat)} (k : String) (t : Nat)
    (h : (conn.map Prod.fst).Nodup) : ((mark_seen conn k t).map Prod.fst).Nodup := by
  unfold mark_seen
  split
  · exact h
  · rename_i hns
    have hk : k ∉ conn.map Prod.fst := by
      intro hmem
      apply hns
      rcases List.mem_map.mp hmem with ⟨r, hr, hrk⟩
      simp only [is_seen, List.any_eq_true]
      exact ⟨r, hr, by simp [hrk]⟩
    simp [List.nodup_append, List.nodup_cons, hk, h]

/-- C3: the Dedup Store record operation (`mark_seen`, an
`INSERT OR IGNORE` on the primary key) is idempotent: re-recording an
existing key with any later timestamp leaves the table — in particular the
stored `first_seen` value — unchanged, never errors (the function is total),
and the key still tests as seen. -/
theorem mark_seen_idempotent (conn : List (String × Nat)) (k : String) (t1 t2 : Nat) :
    mark_seen (mark_seen conn k t1) k t2 = mark_seen conn k t1 ∧
    firstSeen (mark_seen (mark_seen conn k t1) k t2) k = firstSeen (mark_seen conn k t1) k ∧
    is_seen (mark_seen (mark_seen conn k t1) k t2) k = true := by
  have hs : is_seen (mark_seen conn k t1) k = true := is_seen_mark_self conn k t1
  have hgen : ∀ c : List (String × Nat), is_seen c k = true → mark_seen c k t2 = c := by
    intro c hc
    unfold mark_seen
    simp [hc]
  have heq := hgen _ hs
  refine ⟨heq, by rw [heq], by rw [heq]; exact hs⟩

/-- C9: every Relevance Classifier predicate of either script — city match,
role-or-walk-in match, freshness match — returns false (and, being a total
function, raises nothing) on a `None` or empty-string input. -/
theorem classifier_predicates_false_on_empty :
    Emailer.contains_target_city none = false ∧
    Emailer.contains_target_city (some "") = false ∧
    Walkin.text_has_city none = false ∧
    Walkin.text_has_city (some "") = false ∧
    Walkin.text_matches_role_or_walkin none = false ∧
    Walkin.text_matches_role_or_walkin (some "") = false ∧
    Walkin.is_recent none = false ∧
    Walkin.is_recent (some "") = false := by
  decide

/-- C2 (counterexample): the claim says the freshness predicate classifies
"5 hours ago" as fresh via a numeric "<N> hour(s) ago" pattern with N ≤ 24;
the code's `is_recent` has no numeric pattern and rejects it. -/
theorem is_recent_five_hours_not_fresh : Walkin.is_recent (some "5 hours ago") = false := by
  decide

/-- C2 (amended): `is_recent` is true exactly when the lowercased text
contains one of the six fixed markers; there is no numeric hour pattern,
so "5 hours ago" and "48 hours ago" are both not fresh, "Yesterday" is not
fresh, "posted today" is fresh, and a text containing no marker is never
fresh (fail closed). -/
theorem is_recent_marker_characterization :
    Walkin.is_recent (some "posted today") = true ∧
    Walkin.is_recent (some "5 hours ago") = false ∧
    Walkin.is_recent (some "48 hours ago") = false ∧
    Walkin.is_recent (some "Yesterday") = false ∧
    (∀ s : String, Walkin.is_recent (some s) = true →
      ∃ m ∈ Walkin.RECENT_MARKERS, containsStr m (lowerStr s) = true) ∧
    (∀ s : String, (∀ m ∈ Walkin.RECENT_MARKERS, containsStr m (lowerStr s) = false) →
      Walkin.is_recent (some s) = false) ∧
    (∀ (s m : String), m ∈ Walkin.RECENT_MARKERS → containsStr m (lowerStr s) = true →
      Walkin.is_recent (some s) = true) := by
  refine ⟨by decide, by decide, by decide, by decide, ?_, ?_, ?_⟩
  · intro s h
    simp only [Walkin.is_recent] at h
    split at h
    · exact absurd h (by simp)
    · obtain ⟨m, hm, hp⟩ := List.any_eq_true.mp h
      exact ⟨m, hm, hp⟩
  · intro s h
    simp only [Walkin.is_recent]
    split
    · rfl
    · refine List.any_eq_false.mpr ?_
      intro m hm
      simp [h m hm]
  · intro s m hm hc
    simp only [Walkin.is_recent]
    split
    · rename_i he
      exfalso
      have hs : s = "" := (String.isEmpty_iff s).mp he
      subst hs
      have hall : ∀ m' ∈ Walkin.RECENT_MARKERS, containsStr m' (lowerStr "") = false := by
        decide
      rw [hall m hm] at hc
      exact absurd hc (by simp)
    · exact List.any_eq_true.mpr ⟨m, hm, hc⟩

/-- Witness for the amended C2 theorem at a concrete marker-free text and a
concrete marker-bearing text. -/
theorem is_recent_marker_characterization_witness :
    Walkin.is_recent (some "opening at Pune office") = false ∧
    Walkin.is_recent (some "It was posted 1 day ago") = true :=
  ⟨is_recent_marker_characterization.2.2.2.2.2.1 "opening at Pune office" (by decide),
   is_recent_marker_characterization.2.2.2.2.2.2 "It was posted 1 day ago" "1 day ago"
     (by decide) (by decide)⟩

/-! ## Lemmas about the emailer's filter-and-dedup loop -/

lemma fnj_store_mono (now : Nat) :
    ∀ (jobs : List Job) (conn : List (String × Nat)) (k : String),
      is_seen conn k = true →
      is_seen (Emailer.filterNewJobs conn now jobs).2 k = true := by
  intro jobs
  induction jobs with
  | nil => intro conn k h; simpa [Emailer.filterNewJobs] using h
  | cons j0 rest ih =>
    intro conn k h
    simp only [Emailer.filterNewJobs]
    split
    · split
      · exact ih conn k h
      · exact ih _ k (is_seen_mark_mono _ now h)
    · exact ih conn k h

lemma fnj_out_new (now : Nat) :
    ∀ (jobs : List Job) (conn : List (String × Nat)) (j : Job),
      j ∈ (Emailer.filterNewJobs conn now jobs).1 →
      is_seen conn (Emailer.jobKey j) = false := by
  intro jobs
  induction jobs with
  | nil => intro conn j h; simp [Emailer.filterNewJobs] at h
  | cons j0 rest ih =>
    intro conn j h
    simp only [Emailer.filterNewJobs] at h
    split at h
    · split at h
      · exact ih conn j h
      · rename_i hns
        rcases List.mem_cons.mp h with rfl | hmem
        · exact Bool.eq_false_iff.mpr hns
        · have hrec := ih _ j hmem
          by_contra hc
          have htrue : is_seen conn (Emailer.jobKey j) = true :=
            eq_true_of_ne_false (fun hf => hc hf)
          rw [is_seen_mark_mono _ now htrue] at hrec
          exact absurd hrec (by simp)
    · exact ih conn j h

lemma fnj_count (now : Nat) :
    ∀ (jobs : List Job) (conn : List (String × Nat)) (k : String),
      ((Emailer.filterNewJobs conn now jobs).1.filter
        (fun j => Emailer.jobKey j == k)).length ≤ 1 := by
  intro jobs
  induction jobs with
  | nil => intro conn k; simp [Emailer.filterNewJobs]
  | cons j0 rest ih =>
    intro conn k
    simp only [Emailer.filterNewJobs]
    split
    · split
      · exact ih conn k
      · by_cases hk : (Emailer.jobKey j0 == k) = true
        · have hkeq : Emailer.jobKey j0 = k := eq_of_beq hk
          have hfil :
              ((Emailer.filterNewJobs (mark_seen conn (Emailer.jobKey j0) now) now rest).1.filter
                (fun j => Emailer.jobKey j == k)) = [] := by
            rw [List.filter_eq_nil_iff]
            intro j hj
            have hnew := fnj_out_new now rest _ j hj
            intro hbeq
            have : Emailer.jobKey j = k := eq_of_beq hbeq
            rw [this, ← hkeq, is_seen_mark_self] at hnew
            exact absurd hnew (by simp)
          simp only [List.filter_cons, hk, if_pos, hfil]
          simp
        · have hkf : (Emailer.jobKey j0 == k) = false := Bool.eq_false_iff.mpr hk
          simp only [List.filter_cons, hkf]
          simp only [Bool.false_eq_true, if_false]
          exact ih _ k
    · exact ih conn k

lemma fnj_nodup (now : Nat) :
    ∀ (jobs : List Job) (conn : List (String × Nat)),
      (conn.map Prod.fst).Nodup →
      ((Emailer.filterNewJobs conn now jobs).2.map Prod.fst).Nodup := by
  intro jobs
  induction jobs with
  | nil => intro conn h; simpa [Emailer.filterNewJobs] using h
  | cons j0 rest ih =>
    intro conn h
    simp only [Emailer.filterNewJobs]
    split
    · split
      · exact ih conn h
      · exact ih _ (keys_nodup_mark _ now h)
    · exact ih conn h

lemma fnj_sublist (now : Nat) :
    ∀ (jobs : List Job) (conn : List (String × Nat)),
      List.Sublist (Emailer.filterNewJobs conn now jobs).1 jobs := by
  intro jobs
  induction jobs with
  | nil => intro conn; simp [Emailer.filterNewJobs]
  | cons j0 rest ih =>
    intro conn
    simp only [Emailer.filterNewJobs]
    split
    · split
      · exact List.Sublist.cons j0 (ih conn)
      · exact List.Sublist.cons₂ j0 (ih _)
    · exact List.Sublist.cons j0 (ih conn)

lemma fnj_out_recorded (now : Nat) :
    ∀ (jobs : List Job) (conn : List (String × Nat)) (j : Job),
      j ∈ (Emailer.filterNewJobs conn now jobs).1 →
      is_seen (Emailer.filterNewJobs conn now jobs).2 (Emailer.jobKey j) = true := by
  intro jobs
  induction jobs with
  | nil => intro conn j h; simp [Emailer.filterNewJobs] at h
  | cons j0 rest ih =>
    intro conn j h
    by_cases hc : Emailer.contains_target_city (some (Emailer.combinedText j0)) = true
    · by_cases hs : is_seen conn (Emailer.jobKey j0) = true
      · simp only [Emailer.filterNewJobs, hc, if_true, hs] at h ⊢
        exact ih conn j h
      · simp only [Emailer.filterNewJobs, hc, if_true, hs, Bool.not_eq_true,
          Bool.false_eq_true, if_false] at h ⊢
        rcases List.mem_cons.mp h with rfl | hmem
        · exact fnj_store_mono now rest _ _ (is_seen_mark_self conn _ now)
        · exact ih _ j hmem
    · simp only [Emailer.filterNewJobs] at h ⊢
      rw [if_neg hc] at h ⊢
      exact ih conn j h

/-! ## Lemmas about the walkin script's new-jobs loop -/

lemma njl_store_mono (now : Nat) :
    ∀ (jobs : List Job) (conn : List (String × Nat)) (k : String),
      is_seen conn k = true →
      is_seen (Walkin.newJobsLoop conn now jobs).2 k = true := by
  intro jobs
  induction jobs with
  | nil => intro conn k h; simpa [Walkin.newJobsLoop] using h
  | cons j0 rest ih =>
    intro conn k h
    simp only [Walkin.newJobsLoop]
    split
    · exact ih conn k h
    · split
      · exact ih conn k h
      · exact ih _ k (is_seen_mark_mono _ now h)

lemma njl_out_new (now : Nat) :
    ∀ (jobs : List Job) (conn : List (String × Nat)) (j : Job),
      j ∈ (Walkin.newJobsLoop conn now jobs).1 →
      is_seen conn (Walkin.jobKey j) = false := by
  intro jobs
  induction jobs with
  | nil => intro conn j h; simp [Walkin.newJobsLoop] at h
  | cons j0 rest ih =>
    intro conn j h
    simp only [Walkin.newJobsLoop] at h
    split at h
    · exact ih conn j h
    · split at h
      · exact ih conn j h
      · rename_i hns
        rcases List.mem_cons.mp h with rfl | hmem
        · exact Bool.eq_false_iff.mpr hns
        · have hrec := ih _ j hmem
          by_contra hcon
          have htrue : is_seen conn (Walkin.jobKey j) = true :=
            eq_true_of_ne_false (fun hf => hcon hf)
          rw [is_seen_mark_mono _ now htrue] at hrec
          exact absurd hrec (by simp)

lemma njl_count (now : Nat) :
    ∀ (jobs : List Job) (conn : List (String × Nat)) (k : String),
      ((Walkin.newJobsLoop conn now jobs).1.filter
        (fun j => Walkin.jobKey j == k)).length ≤ 1 := by
  intro jobs
  induction jobs with
  | nil => intro conn k; simp [Walkin.newJobsLoop]
  | cons j0 rest ih =>
    intro conn k
    simp only [Walkin.newJobsLoop]
    split
    · exact ih conn k
    · split
      · exact ih conn k
      · by_cases hk : (Walkin.jobKey j0 == k) = true
        · have hkeq : Walkin.jobKey j0 = k := eq_of_beq hk
          have hfil :
              ((Walkin.newJobsLoop (mark_seen conn (Walkin.jobKey j0) now) now rest).1.filter
                (fun j => Walkin.jobKey j == k)) = [] := by
            rw [List.filter_eq_nil_iff]
            intro j hj
            have hnew := njl_out_new now rest _ j hj
            intro hbeq
            have : Walkin.jobKey j = k := eq_of_beq hbeq
            rw [this, ← hkeq, is_seen_mark_self] at hnew
            exact absurd hnew (by simp)
          simp only [List.filter_cons, hk, if_pos, hfil]
          simp
        · have hkf : (Walkin.jobKey j0 == k) = false := Bool.eq_false_iff.mpr hk
          simp only [List.filter_cons, hkf]
          simp only [Bool.false_eq_true, if_false]
          exact ih _ k

lemma njl_nodup (now : Nat) :
    ∀ (jobs : List Job) (conn : List (String × Nat)),
      (conn.map Prod.fst).Nodup →
      ((Walkin.newJobsLoop conn now jobs).2.map Prod.fst).Nodup := by
  intro jobs
  induction jobs with
  | nil => intro conn h; simpa [Walkin.newJobsLoop] using h
  | cons j0 rest ih =>
    intro conn h
    simp only [Walkin.newJobsLoop]
    split
    · exact ih conn h
    · split
      · exact ih conn h
      · exact ih _ (keys_nodup_mark _ now h)

lemma njl_sublist (now : Nat) :
    ∀ (jobs : List Job) (conn : List (String × Nat)),
      List.Sublist (Walkin.newJobsLoop conn now jobs).1 jobs := by
  intro jobs
  induction jobs with
  | nil => intro conn; simp [Walkin.newJobsLoop]
  | cons j0 rest ih =>
    intro conn
    simp only [Walkin.newJobsLoop]
    split
    · exact List.Sublist.cons j0 (ih conn)
    · split
      · exact List.Sublist.cons j0 (ih conn)
      · exact List.Sublist.cons₂ j0 (ih _)

lemma njl_out_recorded (now : Nat) :
    ∀ (jobs : List Job) (conn : List (String × Nat)) (j : Job),
      j ∈ (Walkin.newJobsLoop conn now jobs).1 →
      is_seen (Walkin.newJobsLoop conn now jobs).2 (Walkin.jobKey j) = true := by
  intro jobs
  induction jobs with
  | nil => intro conn j h; simp [Walkin.newJobsLoop] at h
  | cons j0 rest ih =>
    intro conn j h
    by_cases he : Walkin.jobKey j0 = ""
    · simp only [Walkin.newJobsLoop, he, if_pos] at h ⊢
      exact ih conn j h
    · by_cases hs : is_seen conn (Walkin.jobKey j0) = true
      · simp only [Walkin.newJobsLoop, he, if_false, hs, if_true] at h ⊢
        exact ih conn j h
      · simp only [Walkin.newJobsLoop, he, if_false, hs, Bool.not_eq_true,
          Bool.false_eq_true] at h ⊢
        rcases List.mem_cons.mp h with rfl | hmem
        · exact njl_store_mono now rest _ _ (is_seen_mark_self conn _ now)
        · exact ih _ j hmem

/-- C1: in each script's dedup pass over one run's job list (the emailer's
filter-and-record loop and the walkin script's new-jobs loop), at most one
job per dedup key is kept for the digest; every kept job's key was absent
from the store when the run started and is recorded by the time the loop
ends; kept jobs are a subsequence of the input (so when two sources yield
the same key, the first-seen job is the one that can survive); and when the
store keys are unique beforehand they stay unique, so a key is recorded at
most once. -/
theorem dedup_at_most_once_per_run
    (conn : List (String × Nat)) (now : Nat) (jobs : List Job) (k : String) :
    ((Emailer.filterNewJobs conn now jobs).1.filter
        (fun j => Emailer.jobKey j == k)).length ≤ 1 ∧
    ((Walkin.newJobsLoop conn now jobs).1.filter
        (fun j => Walkin.jobKey j == k)).length ≤ 1 ∧
    (∀ j ∈ (Emailer.filterNewJobs conn now jobs).1,
        is_seen conn (Emailer.jobKey j) = false ∧
        is_seen (Emailer.filterNewJobs conn now jobs).2 (Emailer.jobKey j) = true) ∧
    (∀ j ∈ (Walkin.newJobsLoop conn now jobs).1,
        is_seen conn (Walkin.jobKey j) = false ∧
        is_seen (Walkin.newJobsLoop conn now jobs).2 (Walkin.jobKey j) = true) ∧
    List.Sublist (Emailer.filterNewJobs conn now jobs).1 jobs ∧
    List.Sublist (Walkin.newJobsLoop conn now jobs).1 jobs ∧
    ((conn.map Prod.fst).Nodup →
      ((Emailer.filterNewJobs conn now jobs).2.map Prod.fst).Nodup ∧
      ((Walkin.newJobsLoop conn now jobs).2.map Prod.fst).Nodup) := by
  refine ⟨fnj_count now jobs conn k, njl_count now jobs conn k, ?_, ?_, fnj_sublist now jobs conn, njl_sublist now jobs conn, ?_⟩
  · intro j hj
    exact ⟨fnj_out_new now jobs conn j hj, fnj_out_recorded now jobs conn j hj⟩
  · intro j hj
    exact ⟨njl_out_new now jobs conn j hj, njl_out_recorded now jobs conn j hj⟩
  · intro hnd
    exact ⟨fnj_nodup now jobs conn hnd, njl_nodup now jobs conn hnd⟩

/-- Two sources yielding the same link in the same run (the spec's §8
end-to-end scenario). -/
def sampleJobNaukri : Job :=
  { title := "Store Exec", company := "Acme", location := "Pune",
    description := "walk in pune today", link := some "https://x/job/1",
    source := "Naukri", emails := [], phones := [] }

/-- Same posting scraped from a second source. -/
def sampleJobLinkedIn : Job :=
  { title := "Store Executive", company := "Acme", location := "Pune",
    description := "pune", link := some "https://x/job/1",
    source := "LinkedIn", emails := [], phones := [] }

/-- Witness for C1 at the concrete two-source scenario. -/
theorem dedup_at_most_once_per_run_witness :
    ((Emailer.filterNewJobs [("old", 1)] 7 [sampleJobNaukri, sampleJobLinkedIn]).1.filter
        (fun j => Emailer.jobKey j == "https://x/job/1")).length ≤ 1 ∧
    is_seen [("old", 1)] (Emailer.jobKey sampleJobNaukri) = false ∧
    is_seen (Emailer.filterNewJobs [("old", 1)] 7 [sampleJobNaukri, sampleJobLinkedIn]).2
        (Emailer.jobKey sampleJobNaukri) = true ∧
    is_seen [("old", 1)] (Walkin.jobKey sampleJobNaukri) = false ∧
    ((Walkin.newJobsLoop [("old", 1)] 7 [sampleJobNaukri, sampleJobLinkedIn]).2.map
        Prod.fst).Nodup := by
  have h := dedup_at_most_once_per_run [("old", 1)] 7
    [sampleJobNaukri, sampleJobLinkedIn] "https://x/job/1"
  have hmemE : sampleJobNaukri ∈
      (Emailer.filterNewJobs [("old", 1)] 7 [sampleJobNaukri, sampleJobLinkedIn]).1 := by
    decide
  have hmemW : sampleJobNaukri ∈
      (Walkin.newJobsLoop [("old", 1)] 7 [sampleJobNaukri, sampleJobLinkedIn]).1 := by
    decide
  exact ⟨h.1, (h.2.2.1 sampleJobNaukri hmemE).1, (h.2.2.1 sampleJobNaukri hmemE).2,
    (h.2.2.2.1 sampleJobNaukri hmemW).1, (h.2.2.2.2.2.2 (by decide)).2⟩

/-- A link-less job whose title carries trailing whitespace. -/
def spacedJobA : Job :=
  { title := "A ", company := "", location := "", description := "",
    link := none, source := "S", emails := [], phones := [] }

/-- A link-less job whose title carries leading whitespace. -/
def spacedJobB : Job :=
  { title := " A", company := "", location := "", description := "",
    link := none, source := "S", emails := [], phones := [] }

/-- C6 (counterexample): in the walkin script's in-run dedupe the key of a
link-less job is NOT exactly `title + company` — it is additionally
whitespace-stripped, so two jobs whose concatenations differ (`"A "` vs
`" A"`) collide and the second is dropped, unlike under the spec's exact
key. -/
theorem dedupe_key_stripped_cex :
    spacedJobA.link = none ∧ spacedJobB.link = none ∧
    spacedJobA.title ++ spacedJobA.company ≠ spacedJobB.title ++ spacedJobB.company ∧
    Walkin.dedupe_jobs [spacedJobA, spacedJobB] = [spacedJobA] ∧
    Walkin.dedupe_jobs_specExact [spacedJobA, spacedJobB] = [spacedJobA, spacedJobB] := by
  decide

/-- C6 (amended): for every Job lacking a link the dedup-store key is
exactly `title + company` in both scripts; the walkin script's in-run
dedupe additionally strips surrounding whitespace from that key, so
link-less jobs whose concatenations agree after stripping collide (only
the first survives); and for two Jobs lacking link, title and company the
keys are both the empty string and at most one of the two is reported (the
walkin in-run dedupe drops empty keys entirely; the emailer loop dedups
them like any other key). -/
theorem fallback_key_title_company :
    (∀ j : Job, j.link = none → Emailer.jobKey j = j.title ++ j.company) ∧
    (∀ j : Job, j.link = none → Walkin.jobKey j = j.title ++ j.company) ∧
    (∀ j1 j2 : Job, j1.link = none → j2.link = none →
      j1.title ++ j1.company ≠ "" → j2.title ++ j2.company ≠ "" →
      stripStr (j1.title ++ j1.company) = stripStr (j2.title ++ j2.company) →
      Walkin.dedupe_jobs [j1, j2] = [j1]) ∧
    (∀ j1 j2 : Job, j1.title = "" → j1.company = "" → j1.link = none →
      j2.title = "" → j2.company = "" → j2.link = none →
      Walkin.jobKey j1 = "" ∧ Walkin.jobKey j2 = "" ∧
      Walkin.dedupe_jobs [j1, j2] = [] ∧
      (∀ (conn : List (String × Nat)) (now : Nat),
        ((Emailer.filterNewJobs conn now [j1, j2]).1).length ≤ 1)) := by
  refine ⟨?_, ?_, ?_, ?_⟩
  · intro j h
    simp [Emailer.jobKey, h]
  · intro j h
    simp [Walkin.jobKey, h]
  · intro j1 j2 h1 h2 hne1 hne2 hst
    have hk1 : Walkin.jobKey j1 = j1.title ++ j1.company := by simp [Walkin.jobKey, h1]
    have hk2 : Walkin.jobKey j2 = j2.title ++ j2.company := by simp [Walkin.jobKey, h2]
    simp only [Walkin.dedupe_jobs, Walkin.dedupeAux, hk1, hk2]
    rw [if_neg hne1]
    simp only [List.mem_nil_iff, if_false]
    rw [if_neg hne2, ← hst]
    simp [Walkin.dedupeAux]
  · intro j1 j2 ht1 hc1 hl1 ht2 hc2 hl2
    have hk1 : Walkin.jobKey j1 = "" := by
      simp [Walkin.jobKey, hl1, ht1, hc1, str_append_nil]
    have hk2 : Walkin.jobKey j2 = "" := by
      simp [Walkin.jobKey, hl2, ht2, hc2, str_append_nil]
    have hkE : ∀ j ∈ [j1, j2], Emailer.jobKey j = "" := by
      intro j hj
      rcases List.mem_cons.mp hj with rfl | hj2
      · simp [Emailer.jobKey, hl1, ht1, hc1, str_append_nil]
      · rcases List.mem_cons.mp hj2 with rfl | hj3
        · simp [Emailer.jobKey, hl2, ht2, hc2, str_append_nil]
        · simp at hj3
    refine ⟨hk1, hk2, ?_, ?_⟩
    · simp [Walkin.dedupe_jobs, Walkin.dedupeAux, hk1, hk2]
    · intro conn now
      have hsub := fnj_sublist now [j1, j2] conn
      have hcount := fnj_count now [j1, j2] conn ""
      have hall : ∀ j ∈ (Emailer.filterNewJobs conn now [j1, j2]).1,
          (Emailer.jobKey j == "") = true := by
        intro j hj
        have hmem : j ∈ [j1, j2] := hsub.subset hj
        simp [hkE j hmem]
      rw [List.filter_eq_self.mpr hall] at hcount
      exact hcount

/-- A title-less, company-less, link-less job from one source. -/
def emptyKeyJobA : Job :=
  { title := "", company := "", location := "", description := "walk in pune",
    link := none, source := "S1", emails := [], phones := [] }

/-- A title-less, company-less, link-less job from another source. -/
def emptyKeyJobB : Job :=
  { title := "", company := "", location := "Pune", description := "",
    link := none, source := "S2", emails := [], phones := [] }

/-- Witness for the amended C6 theorem at concrete inputs. -/
theorem fallback_key_title_company_witness :
    Emailer.jobKey emptyKeyJobA = emptyKeyJobA.title ++ emptyKeyJobA.company ∧
    Walkin.dedupe_jobs [spacedJobA, spacedJobB] = [spacedJobA] ∧
    Walkin.dedupe_jobs [emptyKeyJobA, emptyKeyJobB] = [] ∧
    ((Emailer.filterNewJobs [] 0 [emptyKeyJobA, emptyKeyJobB]).1).length ≤ 1 := by
  have h := fallback_key_title_company
  have h4 := h.2.2.2 emptyKeyJobA emptyKeyJobB rfl rfl rfl rfl rfl rfl
  exact ⟨h.1 emptyKeyJobA rfl,
    h.2.2.1 spacedJobA spacedJobB rfl rfl (by decide) (by decide) (by decide),
    h4.2.2.1, h4.2.2.2 [] 0⟩

/-! ## Shape of PHONE_REGEX matches and the normalization invariants -/

/-- Every PHONE_REGEX match is `[6-9]\d{9}` optionally preceded by `+91` and
an optional single separator. -/
def phoneShape (m : List Char) : Prop :=
  (∃ c ds, m = c :: ds ∧ isPhoneStart c = true ∧ ds.length = 9 ∧
    ∀ d ∈ ds, d.isDigit = true) ∨
  (∃ c ds, m = '+' :: '9' :: '1' :: c :: ds ∧ isPhoneStart c = true ∧
    ds.length = 9 ∧ ∀ d ∈ ds, d.isDigit = true) ∨
  (∃ s c ds, m = '+' :: '9' :: '1' :: s :: c :: ds ∧ isSepChar s = true ∧
    isPhoneStart c = true ∧ ds.length = 9 ∧ ∀ d ∈ ds, d.isDigit = true)

lemma digitsFrom_spec : ∀ (k : Nat) (l m r : List Char),
    digitsFrom k l = some (m, r) →
    m.length = k ∧ (∀ c ∈ m, c.isDigit = true) ∧ l = m ++ r := by
  intro k
  induction k with
  | zero =>
    intro l m r h
    simp only [digitsFrom, Option.some.injEq, Prod.mk.injEq] at h
    obtain ⟨hm, hr⟩ := h
    subst hm
    subst hr
    simp
  | succ n ih =>
    intro l m r h
    cases l with
    | nil => simp [digitsFrom] at h
    | cons c cs =>
      simp only [digitsFrom] at h
      by_cases hd : c.isDigit = true
      · rw [if_pos hd] at h
        rcases Option.map_eq_some'.mp h with ⟨⟨m', r'⟩, hdf, hpair⟩
        obtain ⟨hm, hr⟩ := Prod.ext_iff.mp hpair
        dsimp only at hm hr
        subst hm
        subst hr
        obtain ⟨hlen, hdig, happ⟩ := ih cs m' r' hdf
        refine ⟨by simp [hlen], ?_, by simp [happ]⟩
        intro d hdm
        rcases List.mem_cons.mp hdm with rfl | hdm'
        · exact hd
        · exact hdig d hdm'
      · rw [if_neg hd] at h
        simp at h

lemma matchCore_spec {l m r : List Char} (h : matchCore l = some (m, r)) :
    ∃ c ds, m = c :: ds ∧ isPhoneStart c = true ∧ ds.length = 9 ∧
      ∀ d ∈ ds, d.isDigit = true := by
  cases l with
  | nil => simp [matchCore] at h
  | cons c cs =>
    simp only [matchCore] at h
    by_cases hp : isPhoneStart c = true
    · rw [if_pos hp] at h
      cases hdf : digitsFrom 9 cs with
      | none => rw [hdf] at h; simp at h
      | some p =>
        obtain ⟨m9, r9⟩ := p
        rw [hdf] at h
        dsimp only at h
        split at h
        · obtain ⟨hm, hr⟩ := Prod.ext_iff.mp (Option.some.inj h)
          dsimp only at hm hr
          obtain ⟨hlen, hdig, _⟩ := digitsFrom_spec 9 cs m9 r9 hdf
          exact ⟨c, m9, hm.symm, hp, hlen, hdig⟩
        · simp at h
    · rw [if_neg hp] at h
      simp at h

lemma matchAfterB_spec : ∀ {l m r : List Char},
    matchAfterB l = some (m, r) → phoneShape m := by
  intro l m r h
  unfold matchAfterB at h
  split at h
  · rename_i rest
    split at h
    · rename_i p heq
      have hpr : p = (m, r) := Option.some.inj h
      subst hpr
      split at heq
      · rename_i s rest2
        by_cases hsep : isSepChar s = true
        · rw [if_pos hsep] at heq
          rcases Option.map_eq_some'.mp heq with ⟨⟨mc, rc⟩, hmc, hpair⟩
          obtain ⟨hm, hr⟩ := Prod.ext_iff.mp hpair
          dsimp only at hm hr
          obtain ⟨c, ds, hshape, hps, hlen, hdig⟩ := matchCore_spec hmc
          refine Or.inr (Or.inr ⟨s, c, ds, ?_, hsep, hps, hlen, hdig⟩)
          rw [← hm, hshape]
        · rw [if_neg hsep] at heq
          simp at heq
      · simp at heq
    · rename_i hnone
      split at h
      · rename_i p heq
        have hpr : p = (m, r) := Option.some.inj h
        subst hpr
        rcases Option.map_eq_some'.mp heq with ⟨⟨mc, rc⟩, hmc, hpair⟩
        obtain ⟨hm, hr⟩ := Prod.ext_iff.mp hpair
        dsimp only at hm hr
        obtain ⟨c, ds, hshape, hps, hlen, hdig⟩ := matchCore_spec hmc
        refine Or.inr (Or.inl ⟨c, ds, ?_, hps, hlen, hdig⟩)
        rw [← hm, hshape]
      · obtain ⟨c, ds, hshape, hps, hlen, hdig⟩ := matchCore_spec h
        exact Or.inl ⟨c, ds, hshape, hps, hlen, hdig⟩
  · obtain ⟨c, ds, hshape, hps, hlen, hdig⟩ := matchCore_spec h
    exact Or.inl ⟨c, ds, hshape, hps, hlen, hdig⟩

lemma scanPhones_shape : ∀ (fuel : Nat) (prevW : Bool) (l m : List Char),
    m ∈ scanPhones fuel prevW l → phoneShape m := by
  intro fuel
  induction fuel with
  | zero => intro prevW l m h; simp [scanPhones] at h
  | succ n ih =>
    intro prevW l m h
    cases l with
    | nil => simp [scanPhones] at h
    | cons c rest =>
      simp only [scanPhones] at h
      cases htm : tryMatchPhone prevW (c :: rest) with
      | none =>
        rw [htm] at h
        exact ih _ _ m h
      | some p =>
        obtain ⟨m0, r0⟩ := p
        rw [htm] at h
        dsimp only at h
        rcases List.mem_cons.mp h with rfl | hmem
        · unfold tryMatchPhone at htm
          split at htm
          · exact matchAfterB_spec htm
          · simp at htm
        · exact ih _ _ m hmem

lemma isPhoneStart_isDigit {c : Char} (h : isPhoneStart c = true) : c.isDigit = true := by
  simp only [isPhoneStart, Bool.and_eq_true, decide_eq_true_eq] at h
  obtain ⟨h1, h2⟩ := h
  have hv1 : ('6' : Char).val ≤ c.val := Char.le_def.mp h1
  have hv2 : c.val ≤ ('9' : Char).val := Char.le_def.mp h2
  simp only [Char.isDigit, Bool.and_eq_true, decide_eq_true_eq]
  exact ⟨UInt32.le_trans (by decide) hv1, UInt32.le_trans hv2 (by decide)⟩

lemma sepChar_not_digit {s : Char} (h : isSepChar s = true) : s.isDigit = false := by
  simp only [isSepChar, Bool.or_eq_true, beq_iff_eq] at h
  rcases h with ((((((rfl | rfl) | rfl) | rfl) | rfl) | rfl) | rfl) <;> decide

lemma cleanPhone_spec {m : List Char} (hs : phoneShape m) :
    ∃ c cs, cleanPhone m = c :: cs ∧ isPhoneStart c = true ∧
      (c :: cs).length = 10 ∧ ∀ d ∈ c :: cs, d.isDigit = true := by
  rcases hs with ⟨c, ds, rfl, hps, hlen, hdig⟩ | ⟨c, ds, rfl, hps, hlen, hdig⟩ |
    ⟨s, c, ds, rfl, hsep, hps, hlen, hdig⟩
  · have hfd : List.filter Char.isDigit ds = ds := List.filter_eq_self.mpr hdig
    have hfc : List.filter Char.isDigit (c :: ds) = c :: ds := by
      rw [List.filter_cons, if_pos (isPhoneStart_isDigit hps), hfd]
    have hcond : ¬ ((c :: ds).length > 10) := by simp [hlen]
    refine ⟨c, ds, ?_, hps, by simp [hlen], ?_⟩
    · simp only [cleanPhone, hfc, if_neg hcond]
    · intro d hd
      rcases List.mem_cons.mp hd with rfl | hd2
      · exact isPhoneStart_isDigit hps
      · exact hdig d hd2
  · have hfd : List.filter Char.isDigit ds = ds := List.filter_eq_self.mpr hdig
    have hfc : List.filter Char.isDigit ('+' :: '9' :: '1' :: c :: ds) =
        '9' :: '1' :: c :: ds := by
      rw [List.filter_cons, if_neg (by decide), List.filter_cons, if_pos (by decide),
        List.filter_cons, if_pos (by decide), List.filter_cons,
        if_pos (isPhoneStart_isDigit hps), hfd]
    have hplen : ('9' :: '1' :: c :: ds).length = 12 := by simp [hlen]
    have h12 : ('9' :: '1' :: c :: ds).length > 10 := by simp [hlen]
    refine ⟨c, ds, ?_, hps, by simp [hlen], ?_⟩
    · simp only [cleanPhone, hfc, if_pos h12, hplen]
      rfl
    · intro d hd
      rcases List.mem_cons.mp hd with rfl | hd2
      · exact isPhoneStart_isDigit hps
      · exact hdig d hd2
  · have hfd : List.filter Char.isDigit ds = ds := List.filter_eq_self.mpr hdig
    have hfc : List.filter Char.isDigit ('+' :: '9' :: '1' :: s :: c :: ds) =
        '9' :: '1' :: c :: ds := by
      rw [List.filter_cons, if_neg (by decide), List.filter_cons, if_pos (by decide),
        List.filter_cons, if_pos (by decide), List.filter_cons,
        if_neg (by simp [sepChar_not_digit hsep]), List.filter_cons,
        if_pos (isPhoneStart_isDigit hps), hfd]
    have hplen : ('9' :: '1' :: c :: ds).length = 12 := by simp [hlen]
    have h12 : ('9' :: '1' :: c :: ds).length > 10 := by simp [hlen]
    refine ⟨c, ds, ?_, hps, by simp [hlen], ?_⟩
    · simp only [cleanPhone, hfc, if_pos h12, hplen]
      rfl
    · intro d hd
      rcases List.mem_cons.mp hd with rfl | hd2
      · exact isPhoneStart_isDigit hps
      · exact hdig d hd2

lemma normPhones_length : ∀ (ps : List String) (p : String),
    p ∈ normPhones ps → p.length = 10 := by
  intro ps
  induction ps with
  | nil => intro p h; simp [normPhones] at h
  | cons q rest ih =>
    intro p hp
    simp only [normPhones] at hp
    split at hp
    · rename_i hlen
      rcases List.mem_cons.mp hp with rfl | hmem
      · exact hlen
      · exact ih p hmem
    · exact ih p hp

lemma normPhones_shape : ∀ (ps : List String),
    (∀ q ∈ ps, phoneShape q.data) →
    ∀ p ∈ normPhones ps,
      (∀ c ∈ p.data, c.isDigit = true) ∧
      ∃ c cs, p.data = c :: cs ∧ isPhoneStart c = true := by
  intro ps
  induction ps with
  | nil => intro _ p h; simp [normPhones] at h
  | cons q rest ih =>
    intro hall p hp
    simp only [normPhones] at hp
    split at hp
    · rcases List.mem_cons.mp hp with rfl | hmem
      · obtain ⟨c, cs, hcp, hps, _, hdig⟩ :=
          cleanPhone_spec (hall q (List.mem_cons_self q rest))
        constructor
        · intro d hd
          exact hdig d (by rw [← hcp]; exact hd)
        · exact ⟨c, cs, hcp, hps⟩
      · exact ih (fun r hr => hall r (List.mem_cons_of_mem q hr)) p hmem
    · exact ih (fun r hr => hall r (List.mem_cons_of_mem q hr)) p hp

lemma findPhones_shape (s : String) (p : String) (hp : p ∈ findPhones s) :
    phoneShape p.data := by
  simp only [findPhones] at hp
  rcases List.mem_map.mp hp with ⟨m, hm, rfl⟩
  exact scanPhones_shape _ _ _ m hm

/-- C4: for every input text, every phone string returned by either
script's Contact Extractor has length exactly 10: candidates are stripped
of non-digits, truncated to their last 10 digits when longer, and retained
only when exactly 10 digits remain (shorter candidates are dropped). -/
theorem contact_extractor_phone_length_10 (text : Option String) :
    (∀ p ∈ (Walkin.extract_contact text).2, p.length = 10) ∧
    (∀ p ∈ (Emailer.extract_contact_info text).2, p.length = 10) := by
  constructor
  · intro p hp
    cases text with
    | none => simp [Walkin.extract_contact] at hp
    | some s =>
      simp only [Walkin.extract_contact] at hp
      by_cases he : s.isEmpty
      · rw [if_pos he] at hp
        simp at hp
      · rw [if_neg he] at hp
        exact normPhones_length _ p hp
  · intro p hp
    cases text with
    | none => simp [Emailer.extract_contact_info] at hp
    | some s =>
      simp only [Emailer.extract_contact_info] at hp
      by_cases he : s.isEmpty
      · rw [if_pos he] at hp
        simp at hp
      · rw [if_neg he] at hp
        exact normPhones_length _ p hp

/-- Witness for C4 at concrete inputs (one plain 10-digit match, one
country-code match that is truncated to its last 10 digits). -/
theorem contact_extractor_phone_length_10_witness :
    ("9876543210" : String).length = 10 ∧ ("9876543210" : String).length = 10 :=
  ⟨(contact_extractor_phone_length_10 (some "call 9876543210 now")).1 "9876543210"
      (by decide),
   (contact_extractor_phone_length_10 (some "x+919876543210")).2 "9876543210"
      (by decide)⟩

/-- C10: every phone string returned by either Contact Extractor consists
of digits only and starts with a digit in 6-9: a plain match starts with
`[6-9]` already, and a `+91`-prefixed match cleans to `91` plus the ten
digits, whose last ten again start with `[6-9]`. -/
theorem contact_extractor_phone_starts_6_to_9 (text : Option String) :
    (∀ p ∈ (Walkin.extract_contact text).2,
        (∀ c ∈ p.data, c.isDigit = true) ∧
        ∃ c cs, p.data = c :: cs ∧ isPhoneStart c = true) ∧
    (∀ p ∈ (Emailer.extract_contact_info text).2,
        (∀ c ∈ p.data, c.isDigit = true) ∧
        ∃ c cs, p.data = c :: cs ∧ isPhoneStart c = true) := by
  constructor
  · intro p hp
    cases text with
    | none => simp [Walkin.extract_contact] at hp
    | some s =>
      simp only [Walkin.extract_contact] at hp
      by_cases he : s.isEmpty
      · rw [if_pos he] at hp
        simp at hp
      · rw [if_neg he] at hp
        refine normPhones_shape _ ?_ p hp
        intro q hq
        exact findPhones_shape s q (dedupList_subset _ q hq)
  · intro p hp
    cases text with
    | none => simp [Emailer.extract_contact_info] at hp
    | some s =>
      simp only [Emailer.extract_contact_info] at hp
      by_cases he : s.isEmpty
      · rw [if_pos he] at hp
        simp at hp
      · rw [if_neg he] at hp
        refine normPhones_shape _ ?_ p hp
        intro q hq
        exact findPhones_shape s q (dedupList_subset _ q hq)

/-- Witness for C10 at a country-code input whose truncation must still
start in 6-9. -/
theorem contact_extractor_phone_starts_6_to_9_witness :
    (∀ c ∈ ("9876543210" : String).data, c.isDigit = true) ∧
    (∃ c cs, ("9876543210" : String).data = c :: cs ∧ isPhoneStart c = true) :=
  (contact_extractor_phone_starts_6_to_9 (some "x+919876543210")).2 "9876543210"
    (by decide)

/-- C7: when the list of new jobs is empty, each script still builds a
non-empty payload that explicitly states that no new jobs were found, and
`main` passes exactly that payload to `send_email` unconditionally
(`mainDelivery` is the total function computing the arguments of that
call). -/
theorem empty_digest_states_no_jobs (today : String) :
    containsStr "No new jobs found in the last 1 day."
      (Walkin.mainDelivery today []).2 = true ∧
    (Walkin.mainDelivery today []).2 ≠ "" ∧
    containsStr "No new job listings matched your cities today."
      (Emailer.mainDelivery today []).2 = true ∧
    (Emailer.mainDelivery today []).2 ≠ "" := by
  have hw : SubStr "No new jobs found in the last 1 day."
      (Walkin.build_email_html today []) := by
    have h1 : SubStr "<p>No new jobs found in the last 1 day.</p>"
        (Walkin.build_email_html today []) := by
      simp only [Walkin.build_email_html]
      refine joinSep_sub "\n" _ _ ?_
      simp
    exact subStr_trans ⟨"<p>", "</p>", by decide⟩ h1
  have he : SubStr "No new job listings matched your cities today."
      (Emailer.build_email_html today []) := by
    have h1 : SubStr "<p>No new job listings matched your cities today.</p>"
        (Emailer.build_email_html today []) := by
      simp only [Emailer.build_email_html]
      refine joinSep_sub "\n" _ _ ?_
      simp
    exact subStr_trans ⟨"<p>", "</p>", by decide⟩ h1
  exact ⟨subStr_contains hw, subStr_ne_empty hw (by decide),
    subStr_contains he, subStr_ne_empty he (by decide)⟩

/-! ## Digest Builder escaping lemmas -/

lemma renderJobW_sub (today : String) (jobs : List Job) (j : Job) (hj : j ∈ jobs)
    (p : String) (hp : p ∈ Walkin.renderJob j) :
    SubStr p (Walkin.build_email_html today jobs) := by
  have hne : ¬ (jobs = []) := by intro h; subst h; simp at hj
  simp only [Walkin.build_email_html]
  refine joinSep_sub "\n" _ _ ?_
  rw [if_neg hne]
  refine List.mem_append.mpr (Or.inr ?_)
  exact List.mem_append.mpr (Or.inr (List.mem_flatMap.mpr ⟨j, hj, hp⟩))

lemma renderJobE_sub (today : String) (jobs : List Job) (j : Job) (hj : j ∈ jobs)
    (p : String) (hp : p ∈ Emailer.renderJob j) :
    SubStr p (Emailer.build_email_html today jobs) := by
  have hne : ¬ (jobs = []) := by intro h; subst h; simp at hj
  simp only [Emailer.build_email_html]
  refine joinSep_sub "\n" _ _ ?_
  rw [if_neg hne]
  exact List.mem_append.mpr (Or.inr (List.mem_flatMap.mpr ⟨j, hj, hp⟩))

/-- A job whose scraped link carries active markup. -/
def scriptLinkJob : Job :=
  { title := "T", company := "", location := "", description := "",
    link := some "<script>", source := "S", emails := [], phones := [] }

/-- C5 (counterexample): the job link is NOT HTML-escaped by either
builder — the raw `<script>` of a malicious link appears verbatim in the
payload (its escaped form does not), so unescaped scraped content is
embedded in the output markup. -/
theorem digest_link_unescaped_cex :
    containsStr "<script>" (Walkin.build_email_html "2024-01-01" [scriptLinkJob]) = true ∧
    containsStr "&lt;script&gt;" (Walkin.build_email_html "2024-01-01" [scriptLinkJob]) = false ∧
    containsStr "<script>" (Emailer.build_email_html "2024-01-01" [scriptLinkJob]) = true ∧
    containsStr "&lt;script&gt;" (Emailer.build_email_html "2024-01-01" [scriptLinkJob]) = false ∧
    html_escape "<script>" = "&lt;script&gt;" := by
  decide

/-- C5 (amended): for every Job rendered by either Digest Builder, the
title, company (when shown), location (when shown), truncated description,
and every extracted email and phone appear HTML-escaped in the payload;
the link, however, is embedded raw (unescaped) inside the anchor markup. -/
theorem digest_escapes_fields_except_link (today : String) (jobs : List Job)
    (j : Job) (hj : j ∈ jobs) :
    containsStr (html_escape j.title) (Walkin.build_email_html today jobs) = true ∧
    (j.company ≠ "" →
      containsStr (html_escape j.company) (Walkin.build_email_html today jobs) = true) ∧
    (j.location ≠ "" →
      containsStr (html_escape j.location) (Walkin.build_email_html today jobs) = true) ∧
    containsStr (html_escape (String.mk (j.description.data.take 600)))
      (Walkin.build_email_html today jobs) = true ∧
    (∀ e ∈ j.emails,
      containsStr (html_escape e) (Walkin.build_email_html today jobs) = true) ∧
    (∀ p ∈ j.phones,
      containsStr (html_escape p) (Walkin.build_email_html today jobs) = true) ∧
    (∀ l, j.link = some l → l ≠ "" →
      containsStr l (Walkin.build_email_html today jobs) = true) ∧
    containsStr (html_escape j.title) (Emailer.build_email_html today jobs) = true ∧
    (html_escape j.company ≠ "" →
      containsStr (html_escape j.company) (Emailer.build_email_html today jobs) = true) ∧
    (html_escape j.location ≠ "" →
      containsStr (html_escape j.location) (Emailer.build_email_html today jobs) = true) ∧
    containsStr (html_escape (String.mk (j.description.data.take 600)))
      (Emailer.build_email_html today jobs) = true ∧
    (∀ e ∈ j.emails,
      containsStr (html_escape e) (Emailer.build_email_html today jobs) = true) ∧
    (∀ p ∈ j.phones,
      containsStr (html_escape p) (Emailer.build_email_html today jobs) = true) ∧
    (∀ l, j.link = some l → l ≠ "" →
      containsStr l (Emailer.build_email_html today jobs) = true) := by
  have mainW : ∀ (p field : String), p ∈ Walkin.renderJob j → SubStr field p →
      containsStr field (Walkin.build_email_html today jobs) = true := by
    intro p field hp hf
    exact subStr_contains (subStr_trans hf (renderJobW_sub today jobs j hj p hp))
  have mainE : ∀ (p field : String), p ∈ Emailer.renderJob j → SubStr field p →
      containsStr field (Emailer.build_email_html today jobs) = true := by
    intro p field hp hf
    exact subStr_contains (subStr_trans hf (renderJobE_sub today jobs j hj p hp))
  refine ⟨?_, ?_, ?_, ?_, ?_, ?_, ?_, ?_, ?_, ?_, ?_, ?_, ?_, ?_⟩
  · exact mainW _ _ (by simp [Walkin.renderJob])
      (subStr_middle "<h3 style='margin:0'>" (html_escape j.title) "</h3>")
  · intro hc
    exact mainW _ _ (by simp [Walkin.renderJob, hc])
      (subStr_middle "<p style='margin:4px 0'><b>Company:</b> "
        (html_escape j.company) "</p>")
  · intro hl
    exact mainW _ _ (by simp [Walkin.renderJob, hl])
      (subStr_middle " - " (html_escape j.location) "</p>")
  · exact mainW _ _ (by simp [Walkin.renderJob])
      (subStr_middle "<p style='margin:6px 0'>"
        (html_escape (String.mk (j.description.data.take 600))) "...</p>")
  · intro e he
    have hne : j.emails ≠ [] := by intro h; rw [h] at he; simp at he
    have hf := subStr_trans (joinSep_sub ", " _ _ (List.mem_map_of_mem html_escape he))
      (subStr_middle "<p style='margin:6px 0'><b>Emails:</b> "
        (joinSep ", " (j.emails.map html_escape)) "</p>")
    exact mainW _ _ (by simp [Walkin.renderJob, hne]) hf
  · intro p hp
    have hne : j.phones ≠ [] := by intro h; rw [h] at hp; simp at hp
    have hf := subStr_trans (joinSep_sub ", " _ _ (List.mem_map_of_mem html_escape hp))
      (subStr_middle "<p style='margin:6px 0'><b>Phones:</b> "
        (joinSep ", " (j.phones.map html_escape)) "</p>")
    exact mainW _ _ (by simp [Walkin.renderJob, hne]) hf
  · intro l hl hlne
    exact mainW _ _ (by simp [Walkin.renderJob, hl, hlne])
      (subStr_middle "<p style='margin:6px 0'><a href=\"" l "\">Open job/link</a></p>")
  · exact mainE _ _ (by simp [Emailer.renderJob])
      (subStr_middle "<h3 style='margin:0'>" (html_escape j.title) "</h3>")
  · intro hc
    exact mainE _ _ (by simp [Emailer.renderJob, hc])
      (subStr_middle "<p style='margin:4px 0'><b>Company:</b> "
        (html_escape j.company) "</p>")
  · intro hl
    exact mainE _ _ (by simp [Emailer.renderJob, hl])
      (subStr_middle "<p style='margin:4px 0'><b>Location:</b> "
        (html_escape j.location) "</p>")
  · exact mainE _ _ (by simp [Emailer.renderJob])
      (subStr_middle "<p style='margin:6px 0'><b>Short description:</b> "
        (html_escape (String.mk (j.description.data.take 600))) "...</p>")
  · intro e he
    have hne : j.emails ≠ [] := by intro h; rw [h] at he; simp at he
    have hf := subStr_trans (joinSep_sub ", " _ _ (List.mem_map_of_mem html_escape he))
      (subStr_middle "<p style='margin:6px 0'><b>Recruiter emails:</b> "
        (joinSep ", " (j.emails.map html_escape)) "</p>")
    exact mainE _ _ (by simp [Emailer.renderJob, hne]) hf
  · intro p hp
    have hne : j.phones ≠ [] := by intro h; rw [h] at hp; simp at hp
    have hf := subStr_trans (joinSep_sub ", " _ _ (List.mem_map_of_mem html_escape hp))
      (subStr_middle "<p style='margin:6px 0'><b>Recruiter phones:</b> "
        (joinSep ", " (j.phones.map html_escape)) "</p>")
    exact mainE _ _ (by simp [Emailer.renderJob, hne]) hf
  · intro l hl hlne
    have hf := subStr_middle "<p style='margin:6px 0'><b>Apply / Job link:</b> <a href='" l
      ("'>" ++ (l ++ "</a></p>"))
    exact mainE _ _ (by simp [Emailer.renderJob, hl, hlne]) hf

/-- Witness for the amended C5 theorem at a concrete job: the escaped title
appears, and the raw link appears in both payloads. -/
theorem digest_escapes_fields_except_link_witness :
    containsStr (html_escape sampleJobNaukri.title)
      (Walkin.build_email_html "D" [sampleJobNaukri]) = true ∧
    containsStr "https://x/job/1" (Walkin.build_email_html "D" [sampleJobNaukri]) = true ∧
    containsStr "https://x/job/1" (Emailer.build_email_html "D" [sampleJobNaukri]) = true := by
  have h := digest_escapes_fields_except_link "D" [sampleJobNaukri] sampleJobNaukri
    (List.mem_cons_self _ _)
  exact ⟨h.1, h.2.2.2.2.2.2.1 "https://x/job/1" rfl (by decide),
    h.2.2.2.2.2.2.2.2.2.2.2.2.2 "https://x/job/1" rfl (by decide)⟩

/-- C8: a missing (or empty) EMAIL_USER, EMAIL_PASS or RECIPIENT_EMAIL
makes the module-level configuration check of either script fail fatally
with its fixed message, and the failure short-circuits everything
downstream of configuration loading (no fetch runs). The only proviso
reflects source order: the `int(...)` conversions of EMAIL_PORT and
MAX_RESULTS run before the credential check, so the hypotheses require
those values (or their defaults) to parse — set or unset, e.g.
EMAIL_PORT="587" with a missing credential is covered. When the three
mandatory values are present, every other option falls back to its
default and loading succeeds. -/
theorem mandatory_config_check (env : String → Option String) :
    ((pyInt ((env "EMAIL_PORT").getD "587") ≠ none →
      pyInt ((env "MAX_RESULTS").getD "10") ≠ none →
      pyInt ((env "MAX_RESULTS").getD "25") ≠ none →
      (truthyOpt (env "EMAIL_USER") = false ∨ truthyOpt (env "EMAIL_PASS") = false ∨
       truthyOpt (env "RECIPIENT_EMAIL") = false) →
      Emailer.loadConfig env = Except.error
        "EMAIL_USER, EMAIL_PASS and RECIPIENT_EMAIL must be set in environment or .env" ∧
      Walkin.loadConfig env = Except.error
        "Set EMAIL_USER, EMAIL_PASS and RECIPIENT_EMAIL as environment variables (or GH Secrets)." ∧
      (∀ pipeline : Emailer.Config → List Job,
        Emailer.runWithConfig env pipeline = Except.error
          "EMAIL_USER, EMAIL_PASS and RECIPIENT_EMAIL must be set in environment or .env") ∧
      (∀ pipeline : Walkin.Config → List Job,
        Walkin.runWithConfig env pipeline = Except.error
          "Set EMAIL_USER, EMAIL_PASS and RECIPIENT_EMAIL as environment variables (or GH Secrets)."))) ∧
    (∀ u pw rc : String, u ≠ "" → pw ≠ "" → rc ≠ "" →
      env "EMAIL_USER" = some u → env "EMAIL_PASS" = some pw →
      env "RECIPIENT_EMAIL" = some rc →
      env "EMAIL_HOST" = none → env "EMAIL_PORT" = none →
      env "NAUKRI_QUERY" = none → env "LINKEDIN_QUERY" = none →
      env "WEB_QUERY" = none → env "MAX_RESULTS" = none →
      Emailer.loadConfig env = Except.ok
        { email_host := "smtp.gmail.com", email_port := 587,
          email_user := u, email_pass := pw, recipient_email := rc,
          naukri_query := "E-commerce Manager",
          linkedin_query := "Ecommerce Manager",
          web_query := "E-commerce Manager jobs India", max_results := 10 } ∧
      Walkin.loadConfig env = Except.ok
        { email_host := "smtp.gmail.com", email_port := 587,
          email_user := u, email_pass := pw, recipient_email := rc,
          max_results := 25 }) := by
  constructor
  · intro hport hmaxE hmaxW hmiss
    obtain ⟨port, hp⟩ := Option.ne_none_iff_exists'.mp hport
    obtain ⟨mE, hmE⟩ := Option.ne_none_iff_exists'.mp hmaxE
    obtain ⟨mW, hmW⟩ := Option.ne_none_iff_exists'.mp hmaxW
    have hcond : (truthyOpt (env "EMAIL_USER") && truthyOpt (env "EMAIL_PASS") &&
        truthyOpt (env "RECIPIENT_EMAIL")) = false := by
      rcases hmiss with h0 | h0 | h0 <;> simp [h0]
    have he : Emailer.loadConfig env = Except.error
        "EMAIL_USER, EMAIL_PASS and RECIPIENT_EMAIL must be set in environment or .env" := by
      simp only [Emailer.loadConfig, hp, hmE, hcond, Bool.false_eq_true, if_false]
    have hw : Walkin.loadConfig env = Except.error
        "Set EMAIL_USER, EMAIL_PASS and RECIPIENT_EMAIL as environment variables (or GH Secrets)." := by
      simp only [Walkin.loadConfig, hp, hmW, hcond, Bool.false_eq_true, if_false]
    refine ⟨he, hw, ?_, ?_⟩
    · intro pipeline
      simp [Emailer.runWithConfig, he, Except.map]
    · intro pipeline
      simp [Walkin.runWithConfig, hw, Except.map]
  · intro u pw rc hu hpw hrc henvu henvp henvr hhost hport hnq hlq hwq hmax
    have h587 : pyInt "587" = some 587 := by decide
    have h10 : pyInt "10" = some 10 := by decide
    have h25 : pyInt "25" = some 25 := by decide
    have hiu : u.isEmpty = false :=
      Bool.eq_false_iff.mpr (fun h => hu ((String.isEmpty_iff u).mp h))
    have hip : pw.isEmpty = false :=
      Bool.eq_false_iff.mpr (fun h => hpw ((String.isEmpty_iff pw).mp h))
    have hir : rc.isEmpty = false :=
      Bool.eq_false_iff.mpr (fun h => hrc ((String.isEmpty_iff rc).mp h))
    constructor
    · simp only [Emailer.loadConfig, hhost, hport, hnq, hlq, hwq, hmax,
        henvu, henvp, henvr, Option.getD_none, Option.getD_some, h587, h10,
        truthyOpt, hiu, hip, hir, Bool.not_false, Bool.and_self, if_true]
    · simp only [Walkin.loadConfig, hhost, hport, hmax, henvu, henvp, henvr,
        Option.getD_none, Option.getD_some, h587, h25,
        truthyOpt, hiu, hip, hir, Bool.not_false, Bool.and_self, if_true]

/-- An environment with nothing configured. -/
def envNone : String → Option String := fun _ => none

/-- An environment with exactly the three mandatory values. -/
def envMin : String → Option String := fun k =>
  if k = "EMAIL_USER" then some "user@example.com"
  else if k = "EMAIL_PASS" then some "hunter2"
  else if k = "RECIPIENT_EMAIL" then some "me@example.com"
  else none

/-- Witness for C8 at two concrete environments. -/
theorem mandatory_config_check_witness :
    Emailer.loadConfig envNone = Except.error
      "EMAIL_USER, EMAIL_PASS and RECIPIENT_EMAIL must be set in environment or .env" ∧
    Walkin.loadConfig envMin = Except.ok
      { email_host := "smtp.gmail.com", email_port := 587,
        email_user := "user@example.com", email_pass := "hunter2",
        recipient_email := "me@example.com", max_results := 25 } := by
  have h1 := (mandatory_config_check envNone).1 (by decide) (by decide) (by decide)
    (Or.inl (by decide))
  have h2 := (mandatory_config_check envMin).2 "user@example.com" "hunter2"
    "me@example.com" (by decide) (by decide) (by decide) (by decide) (by decide)
    (by decide) (by decide) (by decide) (by decide) (by decide) (by decide)
    (by decide)
  exact ⟨h1.1, h2.2⟩
